import Mathlib

/-
Verification of the webhook delivery and approval-gating engine of the
octotask repository: a shallow embedding of `WebhookStore` and
`ApprovalStore` (stores/webhook.ts and stores/approval.ts) together with
the `ApprovalRequest` component logic (WebhookManager.tsx), and theorems
settling the specification claims about them.

Modelling conventions:
- JavaScript objects used as string-keyed records (`Record<string, T>`)
  are modelled as association lists `List (String × T)` in insertion
  order; `{...obj, [k]: v}` is `setKey` (replace in place, else append),
  `obj[k]` is `getKey`, matching `Object.values` enumeration order.
- ISO timestamp strings are modelled by their epoch milliseconds as
  `Nat` (the source only ever compares them through `getTime()`).
- `retryDelay` and `backoffMultiplier` are modelled as `Rat` (the source
  uses JS numbers; defaults include the fractional multiplier 1.5).
- JS truthiness on optional string fields (absent or empty string is
  falsy) is modelled by `truthyStr : Option String → Bool`.
- `Date.now()` and wall-clock reads are passed in explicitly as `now`
  parameters; HTTP outcomes are an explicit environment `DeliveryEnv`.
-/

set_option autoImplicit false
set_option maxRecDepth 16384

universe u

/-- Lookup of a key in a JS-object-as-association-list: `obj[k]`. -/
def getKey {α : Type u} : List (String × α) → String → Option α
  | [], _ => none
  | (k, v) :: rest, key => if k = key then some v else getKey rest key

/-- Insertion `{...obj, [k]: v}`: replace the value in place when the key
is present (JS objects keep the original key position), append otherwise. -/
def setKey {α : Type u} : List (String × α) → String → α → List (String × α)
  | [], key, v => [(key, v)]
  | (k, w) :: rest, key, v =>
      if k = key then (key, v) :: rest else (k, w) :: setKey rest key v

theorem getKey_setKey_self {α : Type u} (m : List (String × α)) (k : String) (v : α) :
    getKey (setKey m k v) k = some v := by
  induction m with
  | nil => simp [getKey, setKey]
  | cons hd tl ih =>
      obtain ⟨k0, v0⟩ := hd
      by_cases h : k0 = k
      · simp [getKey, setKey, h]
      · simp [getKey, setKey, h, ih]

theorem getKey_setKey_of_ne {α : Type u} (m : List (String × α)) (k kq : String) (v : α)
    (h : kq ≠ k) : getKey (setKey m k v) kq = getKey m kq := by
  have hk : ¬ k = kq := fun hh => h hh.symm
  induction m with
  | nil => simp [getKey, setKey, hk]
  | cons hd tl ih =>
      obtain ⟨k0, v0⟩ := hd
      by_cases h0 : k0 = k
      · subst h0
        simp [getKey, setKey, hk]
      · by_cases h1 : k0 = kq
        · simp [getKey, setKey, h0, h1, h]
        · simp [getKey, setKey, h0, h1, ih]

theorem setKey_of_not_mem {α : Type u} (m : List (String × α)) (k : String) (v : α)
    (h : k ∉ m.map Prod.fst) : setKey m k v = m ++ [(k, v)] := by
  induction m with
  | nil => simp [setKey]
  | cons hd tl ih =>
      obtain ⟨k0, v0⟩ := hd
      simp only [List.map_cons, List.mem_cons] at h
      push_neg at h
      have h1 : ¬ k0 = k := fun hh => h.1 hh.symm
      simp [setKey, h1, ih h.2]

theorem length_setKey_of_not_mem {α : Type u} (m : List (String × α)) (k : String) (v : α)
    (h : k ∉ m.map Prod.fst) : (setKey m k v).length = m.length + 1 := by
  rw [setKey_of_not_mem m k v h]
  simp

/-- Truthiness of an optional string field in JavaScript: `undefined` and
the empty string are both falsy. -/
def truthyStr : Option String → Bool
  | some s => !(s = "")
  | none => false

/-- The value of `o || d` in JavaScript for an optional string `o`. -/
def strOrDefault (o : Option String) (d : String) : String :=
  match o with
  | some s => if s = "" then d else s
  | none => d

/-! ## Webhook store data model (stores/webhook.ts) -/

/-- An entry of `WebhookEndpoint.events`. -/
structure WebhookEvent where
  type : String
  description : String
  deriving DecidableEq

/-- Authentication descriptor of a webhook endpoint. -/
inductive AuthKind where
  | noAuth
  | bearer
  | basic
  | custom
  deriving DecidableEq

/-- The `authentication` field of a `WebhookEndpoint`. -/
structure Authentication where
  type : AuthKind
  token : Option String := none
  username : Option String := none
  password : Option String := none
  headers : Option (List (String × String)) := none
  deriving DecidableEq

/-- The `retryConfig` field of a `WebhookEndpoint`. -/
structure RetryConfig where
  maxRetries : Nat
  retryDelay : Rat
  backoffMultiplier : Rat
  deriving DecidableEq

/-- A registered outbound webhook endpoint. -/
structure WebhookEndpoint where
  id : String
  name : String
  url : String
  isEnabled : Bool
  events : List WebhookEvent
  authentication : Authentication
  retryConfig : RetryConfig
  timeout : Nat
  createdAt : Nat
  updatedAt : Nat
  deriving DecidableEq

/-- An outbound webhook payload; `data` holds the JSON text of the
`data` field, `timestamp` the epoch milliseconds of the ISO timestamp. -/
structure WebhookPayload where
  event : String
  timestamp : Nat
  data : String
  signature : Option String := none
  deriving DecidableEq

/-- One delivery-attempt log entry. -/
structure WebhookLog where
  id : String
  webhookId : String
  event : String
  url : String
  method : String
  headers : List (String × String)
  payload : WebhookPayload
  response : Option String
  error : Option String
  statusCode : Option Nat
  success : Bool
  duration : Nat
  retryCount : Nat
  timestamp : Nat
  deriving DecidableEq

/-- A queued delivery (the `deliveryQueue` field; kept for completeness). -/
structure WebhookDelivery where
  id : String
  webhookId : String
  payload : WebhookPayload
  attempt : Nat
  nextRetry : Option Nat := none
  deriving DecidableEq

/-- The state held in `WebhookStore.webhooks`. -/
structure WebhookState where
  endpoints : List (String × WebhookEndpoint)
  logs : List (String × WebhookLog)
  deliveryQueue : List WebhookDelivery
  deriving DecidableEq

/-- A `Partial<WebhookEndpoint>` update object. -/
structure PartialWebhookEndpoint where
  id : Option String := none
  name : Option String := none
  url : Option String := none
  isEnabled : Option Bool := none
  events : Option (List WebhookEvent) := none
  authentication : Option Authentication := none
  retryConfig : Option RetryConfig := none
  timeout : Option Nat := none
  createdAt : Option Nat := none
  deriving DecidableEq

/-- The spread-merge `{...webhook, ...updates, updatedAt: now}` used by
`WebhookStore.updateWebhook`. -/
def mergeWebhookEndpoint (w : WebhookEndpoint) (u : PartialWebhookEndpoint) (now : Nat) :
    WebhookEndpoint :=
  { id := u.id.getD w.id
    name := u.name.getD w.name
    url := u.url.getD w.url
    isEnabled := u.isEnabled.getD w.isEnabled
    events := u.events.getD w.events
    authentication := u.authentication.getD w.authentication
    retryConfig := u.retryConfig.getD w.retryConfig
    timeout := u.timeout.getD w.timeout
    createdAt := u.createdAt.getD w.createdAt
    updatedAt := now }

/-- `WebhookStore.addWebhook`. -/
def addWebhook (st : WebhookState) (webhook : WebhookEndpoint) : WebhookState :=
  { st with endpoints := setKey st.endpoints webhook.id webhook }

/-- `WebhookStore.updateWebhook`: merge a partial update into an existing
endpoint, refreshing `updatedAt`; silently do nothing when the id is
unknown. -/
def updateWebhook (st : WebhookState) (id : String) (updates : PartialWebhookEndpoint)
    (now : Nat) : WebhookState :=
  match getKey st.endpoints id with
  | some webhook =>
      { st with endpoints := setKey st.endpoints id (mergeWebhookEndpoint webhook updates now) }
  | none => st

/-- `WebhookStore.removeWebhook`. -/
def removeWebhook (st : WebhookState) (id : String) : WebhookState :=
  { st with endpoints := st.endpoints.filter (fun kv => !(kv.1 = id)) }

/-- Claim C9: updating a webhook id that is not in the registry is a
no-op: no error is raised and the whole registry state is unchanged. -/
theorem updateWebhook_missing_id_noop (st : WebhookState) (id : String)
    (updates : PartialWebhookEndpoint) (now : Nat)
    (h : getKey st.endpoints id = none) :
    updateWebhook st id updates now = st := by
  simp [updateWebhook, h]

/-- Witness for claim C9 at a concrete registry and id. -/
theorem updateWebhook_missing_id_noop_witness :
    updateWebhook { endpoints := [], logs := [], deliveryQueue := [] } "missing"
        { url := some "https://example.test" } 7 =
      { endpoints := [], logs := [], deliveryQueue := [] } :=
  updateWebhook_missing_id_noop _ "missing" _ 7 (by rfl)

/-! ## Signature codec (`signPayload`, `verifySignature`) -/

/-- The base64 alphabet used by `btoa`. -/
def base64Table : List Char :=
  "ABCDEFGHIJKLMNOPQRSTUVWXYZabcdefghijklmnopqrstuvwxyz0123456789+/".data

/-- Character of the base64 alphabet at a 6-bit index. -/
def b64Char (n : Nat) : Char := base64Table.getD n 'A'

/-- Base64-encode a list of byte values, three bytes to four characters,
padding the final group with equals signs. -/
def base64Chunks : List Nat → List Char
  | [] => []
  | [b1] =>
      let x := b1 * 65536
      [b64Char (x / 262144 % 64), b64Char (x / 4096 % 64), '=', '=']
  | [b1, b2] =>
      let x := b1 * 65536 + b2 * 256
      [b64Char (x / 262144 % 64), b64Char (x / 4096 % 64), b64Char (x / 64 % 64), '=']
  | b1 :: b2 :: b3 :: rest =>
      let x := b1 * 65536 + b2 * 256 + b3
      b64Char (x / 262144 % 64) :: b64Char (x / 4096 % 64) :: b64Char (x / 64 % 64) ::
        b64Char (x % 64) :: base64Chunks rest

/-- The browser `btoa` over a latin-1 string (character codes as bytes). -/
def btoa (s : String) : String :=
  String.mk (base64Chunks (s.data.map Char.toNat))

/-- JSON serialization of a `WebhookPayload` as produced by
`JSON.stringify` (the optional `signature` key is omitted when absent;
`data` already holds its own JSON text). -/
def jsonStringifyPayload (p : WebhookPayload) : String :=
  "\x7b\"event\":\"" ++ p.event ++ "\",\"timestamp\":\"" ++ toString p.timestamp ++
    "\",\"data\":" ++ p.data ++
    (match p.signature with
     | some s => ",\"signature\":\"" ++ s ++ "\""
     | none => "") ++ "\x7d"

/-- `WebhookStore.signPayload`: the placeholder signature is the first 32
characters of the base64 encoding of the serialized payload. -/
def signPayload (payload : WebhookPayload) (webhook : WebhookEndpoint) : WebhookPayload :=
  let payloadString := jsonStringifyPayload payload
  let signature := (btoa payloadString).take 32
  { payload with signature := some signature }

/-- `WebhookStore.verifySignature`: the source is a stub that accepts any
payload and signature pair. -/
def verifySignature {α : Type u} (payload : α) (signature : String) : Bool :=
  true

/-- A concrete endpoint used in counterexamples. -/
def endpointC5 : WebhookEndpoint :=
  { id := "wh-1", name := "Test", url := "https://target.test", isEnabled := true,
    events := [{ type := "deployment.completed", description := "done" }],
    authentication := { type := AuthKind.noAuth },
    retryConfig := { maxRetries := 3, retryDelay := 1000, backoffMultiplier := 2 },
    timeout := 30000, createdAt := 0, updatedAt := 0 }

/-- A concrete payload and a one-byte alteration of it. -/
def payloadC5 : WebhookPayload :=
  { event := "deployment.completed", timestamp := 1, data := "\"a\"" }

/-- The payload `payloadC5` with one byte of its data altered. -/
def tamperedPayloadC5 : WebhookPayload :=
  { payloadC5 with data := "\"b\"" }

/-- Counterexample to claim C5: the signed payload's signature still
verifies after one byte of the payload is altered, because
`verifySignature` is a stub that always returns `true`; tampering is not
detected. -/
theorem verifySignature_tamper_counterexample :
    tamperedPayloadC5 ≠ payloadC5 ∧
      verifySignature tamperedPayloadC5
          ((signPayload payloadC5 endpointC5).signature.getD "") = true := by
  constructor
  · decide
  · rfl

/-- Claim C5, amended: the sign/verify round-trip holds, but only because
`verifySignature` accepts every payload/signature pair, so altering the
payload never makes verification fail. -/
theorem verifySignature_always_true_roundtrip :
    (∀ (p : WebhookPayload) (w : WebhookEndpoint),
        verifySignature (signPayload p w) ((signPayload p w).signature.getD "") = true) ∧
      (∀ (p : WebhookPayload) (s : String), verifySignature p s = true) :=
  ⟨fun _ _ => rfl, fun _ _ => rfl⟩

/-! ## Delivery engine (`deliverWebhook`, `sendWebhook`, `broadcastEvent`) -/

/-- Outcome of one HTTP delivery attempt: a response with a status code
and body, or a transport-level failure (network error, timeout/abort). -/
inductive AttemptOutcome where
  | response (status : Nat) (body : String)
  | transportFailure (message : String)
  deriving DecidableEq

/-- Whether an attempt outcome counts as success (`fetchResponse.ok`,
true exactly for 2xx status codes; a transport failure never succeeds). -/
def outcomeSuccess : AttemptOutcome → Bool
  | AttemptOutcome.response status _ => 200 ≤ status && status ≤ 299
  | AttemptOutcome.transportFailure _ => false

/-- The external world seen by the delivery engine: the HTTP outcome of
each attempt (0-based), the wall clock at the start of each attempt and
each attempt's duration. -/
structure DeliveryEnv where
  outcome : Nat → AttemptOutcome
  attemptTime : Nat → Nat
  attemptDuration : Nat → Nat

/-- `WebhookStore.addAuthenticationHeaders`: extend the header map
according to the endpoint's authentication variant (note the JS
truthiness guards on the credential fields). -/
def addAuthenticationHeaders (headers : List (String × String)) (auth : Authentication) :
    List (String × String) :=
  match auth.type with
  | AuthKind.bearer =>
      if truthyStr auth.token then
        setKey headers "Authorization" ("Bearer " ++ auth.token.getD "")
      else headers
  | AuthKind.basic =>
      if truthyStr auth.username && truthyStr auth.password then
        setKey headers "Authorization"
          ("Basic " ++ btoa (auth.username.getD "" ++ ":" ++ auth.password.getD ""))
      else headers
  | AuthKind.custom =>
      match auth.headers with
      | some hs => hs.foldl (fun acc kv => setKey acc kv.1 kv.2) headers
      | none => headers
  | AuthKind.noAuth => headers

/-- Headers built by `WebhookStore.deliverWebhook` for one attempt:
the fixed delivery headers, the authentication headers, then the
signature header when the signed payload carries a signature. -/
def buildDeliveryHeaders (w : WebhookEndpoint) (p : WebhookPayload)
    (signedPayload : WebhookPayload) (attempt : Nat) : List (String × String) :=
  let headers0 : List (String × String) :=
    [("Content-Type", "application/json"),
     ("User-Agent", "OctoTask-Webhook/1.0"),
     ("X-Webhook-Event", p.event),
     ("X-Webhook-Timestamp", toString p.timestamp),
     ("X-Webhook-Attempt", toString (attempt + 1))]
  let headers1 := addAuthenticationHeaders headers0 w.authentication
  if truthyStr signedPayload.signature then
    setKey headers1 "X-Webhook-Signature" (signedPayload.signature.getD "")
  else headers1

/-- `WebhookStore.deliverWebhook`: perform the attempt with the given
0-based attempt number, append a log entry for it, and when the attempt
fails with `attempt < maxRetries` schedule a retry after
`retryDelay * backoffMultiplier ^ attempt` milliseconds. The value is
the list of log entries appended over the whole retry chain (in order)
together with the list of scheduled backoff delays. -/
def deliverWebhook (w : WebhookEndpoint) (p : WebhookPayload) (env : DeliveryEnv)
    (attempt : Nat) : List WebhookLog × List Rat :=
  let startTime := env.attemptTime attempt
  let logId := w.id ++ "-" ++ toString startTime ++ "-" ++ toString attempt
  let signedPayload := signPayload p w
  let headers := buildDeliveryHeaders w p signedPayload attempt
  let outcome := env.outcome attempt
  let success := outcomeSuccess outcome
  let log : WebhookLog :=
    { id := logId, webhookId := w.id, event := p.event, url := w.url, method := "POST",
      headers := headers, payload := signedPayload,
      response := match outcome with
        | AttemptOutcome.response _ body => some body
        | AttemptOutcome.transportFailure _ => none,
      error := match outcome with
        | AttemptOutcome.response _ _ => none
        | AttemptOutcome.transportFailure msg => some msg,
      statusCode := match outcome with
        | AttemptOutcome.response status _ => some status
        | AttemptOutcome.transportFailure _ => none,
      success := success, duration := env.attemptDuration attempt, retryCount := attempt,
      timestamp := startTime + env.attemptDuration attempt }
  if h : success = false ∧ attempt < w.retryConfig.maxRetries then
    let delay := w.retryConfig.retryDelay * w.retryConfig.backoffMultiplier ^ attempt
    let rest := deliverWebhook w p env (attempt + 1)
    (log :: rest.1, delay :: rest.2)
  else
    ([log], [])
termination_by w.retryConfig.maxRetries - attempt
decreasing_by
  obtain ⟨h1, h2⟩ := h
  omega

/-- `WebhookStore.sendWebhook`: look the endpoint up, reject missing,
disabled or url-less endpoints with an error, skip when the delivery id
is already in flight, otherwise run the delivery chain from attempt 0. -/
def sendWebhook (st : WebhookState) (webhookId : String) (payload : WebhookPayload)
    (env : DeliveryEnv) (now : Nat) (inProgress : List String) :
    Except String (List WebhookLog × List Rat) :=
  match getKey st.endpoints webhookId with
  | none => Except.error "Webhook not found or disabled"
  | some webhook =>
      if !webhook.isEnabled || webhook.url = "" then
        Except.error "Webhook not found or disabled"
      else
        let deliveryId := webhookId ++ "-" ++ toString now
        if inProgress.contains deliveryId then
          Except.ok ([], [])
        else
          Except.ok (deliverWebhook webhook payload env 0)

/-- `WebhookStore.broadcastEvent`: fan one payload out to every enabled
endpoint subscribed to the event type; each delivery runs through a
`catch` that records the failure instead of propagating it, and the
broadcast itself resolves with the per-endpoint caught errors. -/
def broadcastEvent (st : WebhookState) (eventType : String) (data : String)
    (env : DeliveryEnv) (now : Nat) (inProgress : List String) :
    Except String (List (Option String)) :=
  let webhooks := (st.endpoints.map Prod.snd).filter
    (fun w => w.isEnabled && w.events.any (fun e => e.type = eventType))
  let payload : WebhookPayload := { event := eventType, timestamp := now, data := data }
  Except.ok (webhooks.map (fun w =>
    match sendWebhook st w.id payload env now inProgress with
    | Except.ok _ => none
    | Except.error e => some e))

/-- Core induction for the retry chain of a permanently failing target:
starting from attempt `a` with `maxRetries - a = f`, the chain logs
attempts `a, a+1, ..., a+f` and schedules delays for `a, ..., a+f-1`. -/
theorem deliverWebhook_fail_aux (w : WebhookEndpoint) (p : WebhookPayload) (env : DeliveryEnv)
    (hfail : ∀ k, outcomeSuccess (env.outcome k) = false) :
    ∀ (f a : Nat), w.retryConfig.maxRetries - a = f →
      (deliverWebhook w p env a).1.map (fun log => log.retryCount) = List.range' a (f + 1) ∧
      (deliverWebhook w p env a).2 =
        (List.range' a f).map
          (fun k => w.retryConfig.retryDelay * w.retryConfig.backoffMultiplier ^ k) := by
  intro f
  induction f with
  | zero =>
      intro a ha
      have hlt : ¬ a < w.retryConfig.maxRetries := by omega
      rw [deliverWebhook]
      simp [hfail a, hlt, List.range']
  | succ n ih =>
      intro a ha
      have hlt : a < w.retryConfig.maxRetries := by omega
      have hrec := ih (a + 1) (by omega)
      rw [deliverWebhook]
      simp [hfail a, hlt, hrec.1, hrec.2, List.range']

/-- Claim C1: delivering one broadcast event to a target that fails every
attempt yields exactly `maxRetries + 1` log entries whose `retryCount`
values are `0, ..., maxRetries`, and the scheduled delay before retry
attempt `k+1` is `retryDelay * backoffMultiplier ^ k` milliseconds. -/
theorem deliverWebhook_always_failing_retry_schedule (w : WebhookEndpoint)
    (p : WebhookPayload) (env : DeliveryEnv)
    (hfail : ∀ k, outcomeSuccess (env.outcome k) = false) :
    (deliverWebhook w p env 0).1.length = w.retryConfig.maxRetries + 1 ∧
    (deliverWebhook w p env 0).1.map (fun log => log.retryCount) =
      List.range (w.retryConfig.maxRetries + 1) ∧
    (deliverWebhook w p env 0).2 =
      (List.range w.retryConfig.maxRetries).map
        (fun k => w.retryConfig.retryDelay * w.retryConfig.backoffMultiplier ^ k) := by
  have h := deliverWebhook_fail_aux w p env hfail w.retryConfig.maxRetries 0 (by omega)
  refine ⟨?_, ?_, ?_⟩
  · have hlen := congrArg List.length h.1
    simpa using hlen
  · rw [h.1, List.range_eq_range']
  · rw [h.2, List.range_eq_range']

/-- An environment whose target answers HTTP 500 on every attempt. -/
def envC1 : DeliveryEnv :=
  { outcome := fun _ => AttemptOutcome.response 500 "Internal Server Error",
    attemptTime := fun k => 1000 * k,
    attemptDuration := fun _ => 5 }

/-- A concrete endpoint with `maxRetries = 2`, `retryDelay = 100`,
`backoffMultiplier = 2`. -/
def endpointC1 : WebhookEndpoint :=
  { id := "wh-retry", name := "Retry", url := "https://x.test", isEnabled := true,
    events := [{ type := "deployment.failed", description := "fail" }],
    authentication := { type := AuthKind.noAuth },
    retryConfig := { maxRetries := 2, retryDelay := 100, backoffMultiplier := 2 },
    timeout := 30000, createdAt := 0, updatedAt := 0 }

/-- A concrete payload delivered in the C1 witness. -/
def payloadC1 : WebhookPayload :=
  { event := "deployment.failed", timestamp := 42, data := "\"x\"" }

/-- Witness for claim C1: against an always-500 target, the endpoint with
`maxRetries = 2, retryDelay = 100, backoffMultiplier = 2` logs three
attempts with retry counts 0, 1, 2 and schedules delays 100 and 200. -/
theorem deliverWebhook_retry_schedule_witness :
    (deliverWebhook endpointC1 payloadC1 envC1 0).1.length = 3 ∧
    (deliverWebhook endpointC1 payloadC1 envC1 0).1.map (fun log => log.retryCount) =
      [0, 1, 2] ∧
    (deliverWebhook endpointC1 payloadC1 envC1 0).2 = [100, 200] := by
  have h := deliverWebhook_always_failing_retry_schedule endpointC1 payloadC1 envC1
    (fun k => rfl)
  refine ⟨h.1, ?_, ?_⟩
  · rw [h.2.1]
    rfl
  · rw [h.2.2]
    norm_num [endpointC1, List.range_succ]

/-- Claim C6: `broadcastEvent` never raises to its caller; it resolves
with one entry per enabled subscribed endpoint, each delivery failure
independently caught and recorded rather than propagated. -/
theorem broadcastEvent_never_raises (st : WebhookState) (eventType : String) (data : String)
    (env : DeliveryEnv) (now : Nat) (inProgress : List String) :
    ∃ results, broadcastEvent st eventType data env now inProgress = Except.ok results ∧
      results = ((st.endpoints.map Prod.snd).filter
          (fun w => w.isEnabled && w.events.any (fun e => e.type = eventType))).map
        (fun w =>
          match sendWebhook st w.id { event := eventType, timestamp := now, data := data }
              env now inProgress with
          | Except.ok _ => none
          | Except.error e => some e) :=
  ⟨_, rfl, rfl⟩

/-! ## Webhook log retention (`addLog`) -/

/-- Insert a log into a list sorted by descending timestamp (the JS
stable comparator `(a, b) => getTime(b) - getTime(a)`). -/
def insertByTimestampDesc (l : WebhookLog) : List WebhookLog → List WebhookLog
  | [] => [l]
  | x :: xs =>
      if x.timestamp ≤ l.timestamp then l :: x :: xs else x :: insertByTimestampDesc l xs

/-- Stable sort of logs by descending timestamp. -/
def sortByTimestampDesc : List WebhookLog → List WebhookLog
  | [] => []
  | x :: xs => insertByTimestampDesc x (sortByTimestampDesc xs)

/-- `WebhookStore.addLog`: insert the log, then enforce the 1000-entry
cap. Note that, as in the source, the cap check and the trimmed map are
both computed from the snapshot taken before the insertion (`current`),
so the trim drops the just-inserted log. -/
def addLog (st : WebhookState) (log : WebhookLog) : WebhookState :=
  let withNew : WebhookState := { st with logs := setKey st.logs log.id log }
  let logs := st.logs.map Prod.snd
  if 1000 < logs.length then
    let sortedLogs := sortByTimestampDesc logs
    let logsToKeep := sortedLogs.take 1000
    let logsMap := logsToKeep.foldl (fun acc l => setKey acc l.id l) []
    { st with logs := logsMap }
  else withNew

theorem mem_insertByTimestampDesc (x y : WebhookLog) :
    ∀ l, y ∈ insertByTimestampDesc x l → y = x ∨ y ∈ l := by
  intro l
  induction l with
  | nil =>
      intro h
      simpa [insertByTimestampDesc] using h
  | cons z zs ih =>
      intro h
      rw [insertByTimestampDesc] at h
      by_cases hc : z.timestamp ≤ x.timestamp
      · rw [if_pos hc] at h
        rcases List.mem_cons.mp h with h | h
        · exact Or.inl h
        · exact Or.inr h
      · rw [if_neg hc] at h
        rcases List.mem_cons.mp h with h | h
        · exact Or.inr (List.mem_cons.mpr (Or.inl h))
        · rcases ih h with h | h
          · exact Or.inl h
          · exact Or.inr (List.mem_cons.mpr (Or.inr h))

theorem mem_sortByTimestampDesc (y : WebhookLog) :
    ∀ l, y ∈ sortByTimestampDesc l → y ∈ l := by
  intro l
  induction l with
  | nil =>
      intro h
      simpa [sortByTimestampDesc] using h
  | cons x xs ih =>
      intro h
      rw [sortByTimestampDesc] at h
      rcases mem_insertByTimestampDesc x y _ h with h | h
      · exact List.mem_cons.mpr (Or.inl h)
      · exact List.mem_cons.mpr (Or.inr (ih h))

theorem getKey_foldl_setKey_none (key : String) :
    ∀ (ls : List WebhookLog) (acc : List (String × WebhookLog)),
      (∀ l ∈ ls, ¬ l.id = key) → getKey acc key = none →
      getKey (ls.foldl (fun acc l => setKey acc l.id l) acc) key = none := by
  intro ls
  induction ls with
  | nil =>
      intro acc h hacc
      simpa using hacc
  | cons x xs ih =>
      intro acc h hacc
      simp only [List.foldl_cons]
      apply ih
      · intro l hl
        exact h l (List.mem_cons_of_mem _ hl)
      · rw [getKey_setKey_of_ne]
        · exact hacc
        · exact fun hh => h x (List.mem_cons_self _ _) hh.symm

/-- Distinct log id of length `i + 2` used to fill the registry. -/
def mkBulkLogId (i : Nat) : String := String.mk (List.replicate (i + 2) 'a')

/-- A bulk log entry with timestamp `i`. -/
def mkBulkLog (i : Nat) : WebhookLog :=
  { id := mkBulkLogId i, webhookId := "wh-bulk", event := "deployment.completed",
    url := "https://x.test", method := "POST", headers := [],
    payload := { event := "deployment.completed", timestamp := i, data := "0" },
    response := some "ok", error := none, statusCode := some 200, success := true,
    duration := 1, retryCount := 0, timestamp := i }

/-- A registry already holding exactly 1000 logs. -/
def bulkLogState : WebhookState :=
  { endpoints := [],
    logs := (List.range 1000).map (fun i => (mkBulkLogId i, mkBulkLog i)),
    deliveryQueue := [] }

/-- A fresh log (id of length 1, newest timestamp) appended to the full
registry. -/
def freshLogA : WebhookLog :=
  { id := "a", webhookId := "wh-bulk", event := "deployment.completed",
    url := "https://x.test", method := "POST", headers := [],
    payload := { event := "deployment.completed", timestamp := 5000, data := "0" },
    response := some "ok", error := none, statusCode := some 200, success := true,
    duration := 1, retryCount := 0, timestamp := 5000 }

/-- A second fresh log (empty id, newest timestamp) appended once the
registry holds 1001 entries. -/
def freshLogB : WebhookLog :=
  { id := "", webhookId := "wh-bulk", event := "deployment.completed",
    url := "https://x.test", method := "POST", headers := [],
    payload := { event := "deployment.completed", timestamp := 6000, data := "0" },
    response := some "ok", error := none, statusCode := some 200, success := true,
    duration := 1, retryCount := 0, timestamp := 6000 }

theorem mkBulkLogId_length (i : Nat) : (mkBulkLogId i).length = i + 2 := by
  simp [mkBulkLogId, String.length]

theorem bulkLogState_keys :
    bulkLogState.logs.map Prod.fst = (List.range 1000).map mkBulkLogId := by
  simp [bulkLogState, List.map_map, Function.comp]

theorem freshLogA_id_not_mem : "a" ∉ bulkLogState.logs.map Prod.fst := by
  rw [bulkLogState_keys]
  intro hmem
  obtain ⟨i, hi, hEq⟩ := List.mem_map.mp hmem
  have hlen := congrArg String.length hEq
  rw [mkBulkLogId_length] at hlen
  simp [String.length] at hlen

theorem addLog_keep (st : WebhookState) (log : WebhookLog)
    (h : ¬ 1000 < (st.logs.map Prod.snd).length) :
    (addLog st log).logs = setKey st.logs log.id log := by
  simp only [addLog]
  rw [if_neg h]

theorem addLog_trim (st : WebhookState) (log : WebhookLog)
    (h : 1000 < (st.logs.map Prod.snd).length) :
    (addLog st log).logs =
      ((sortByTimestampDesc (st.logs.map Prod.snd)).take 1000).foldl
        (fun acc l => setKey acc l.id l) [] := by
  simp only [addLog]
  rw [if_pos h]

theorem bulkLogState_length : bulkLogState.logs.length = 1000 := by
  simp [bulkLogState]

theorem addLog_bulk_logs :
    (addLog bulkLogState freshLogA).logs = bulkLogState.logs ++ [("a", freshLogA)] := by
  have hlen : (bulkLogState.logs.map Prod.snd).length = 1000 := by
    simp [bulkLogState]
  rw [addLog_keep bulkLogState freshLogA (by rw [hlen]; omega),
    show freshLogA.id = "a" from rfl]
  exact setKey_of_not_mem bulkLogState.logs "a" freshLogA freshLogA_id_not_mem

/-- Claim C4 fails on the code: starting from a registry holding exactly
1000 logs, `addLog` leaves 1001 entries (the cap check reads the
pre-insert snapshot), and the next `addLog`, which does trigger the trim,
rebuilds the retained map from the pre-insert snapshot so the newly
appended log (id "", the newest timestamp) is absent afterwards. -/
theorem addLog_cap_violation :
    1000 < (addLog bulkLogState freshLogA).logs.length ∧
    getKey (addLog (addLog bulkLogState freshLogA) freshLogB).logs "" = none := by
  have hA := addLog_bulk_logs
  have hAlen : ((addLog bulkLogState freshLogA).logs.map Prod.snd).length = 1001 := by
    rw [hA, List.map_append, List.length_append]
    simp only [List.length_map, List.map_cons, List.map_nil, List.length_cons, List.length_nil]
    rw [bulkLogState_length]
  constructor
  · have hc := congrArg List.length hA
    simp only [List.length_append, List.length_cons, List.length_nil] at hc
    rw [hc, bulkLogState_length]
    omega
  · rw [addLog_trim _ _ (by rw [hAlen]; omega)]
    apply getKey_foldl_setKey_none
    · intro l hl
      have hsort := List.take_subset 1000 _ hl
      have hmem := mem_sortByTimestampDesc l _ hsort
      rw [hA] at hmem
      simp only [List.map_append, List.mem_append, List.map_cons, List.map_nil,
        List.mem_singleton] at hmem
      rcases hmem with hmem | hmem
      · have hvals : bulkLogState.logs.map Prod.snd = (List.range 1000).map mkBulkLog := by
          simp [bulkLogState, List.map_map, Function.comp]
        rw [hvals] at hmem
        obtain ⟨i, hi, hie⟩ := List.mem_map.mp hmem
        intro hid
        have hid2 : mkBulkLogId i = "" := by
          rw [show mkBulkLogId i = (mkBulkLog i).id from rfl, hie, hid]
        have hl2 := congrArg String.length hid2
        rw [mkBulkLogId_length] at hl2
        have h0 : ("" : String).length = 0 := rfl
        rw [h0] at hl2
        omega
      · rw [hmem]
        intro hcontra
        exact absurd hcontra (by decide)
    · rfl

/-! ## Approval store data model (stores/approval.ts) -/

/-- An approver entry of an `ApprovalRule`. -/
structure ApprovalUser where
  id : String
  name : String
  email : String
  role : String
  deriving DecidableEq

/-- A condition attached to a conditional approval rule. -/
structure ApprovalCondition where
  id : String
  type : String
  operator : String
  value : String
  description : String
  deriving DecidableEq

/-- A configured approval rule. -/
structure ApprovalRule where
  id : String
  name : String
  environmentId : String
  environmentType : String
  isEnabled : Bool
  approvalType : String
  requiredApprovers : Nat
  approvers : List ApprovalUser
  conditions : List ApprovalCondition
  timeoutHours : Nat
  autoApproveOnTimeout : Bool
  createdAt : Nat
  updatedAt : Nat
  deriving DecidableEq

/-- One recorded approve/reject action. The `action` field is a string,
as in the source, where the inbound webhook path forwards it unchecked. -/
structure ApprovalAction where
  id : String
  userId : String
  userName : String
  userEmail : String
  action : String
  comment : String
  timestamp : Nat
  deriving DecidableEq

/-- Status of an approval request. -/
inductive ApprovalStatus where
  | pending
  | approved
  | rejected
  | expired
  deriving DecidableEq

/-- String form of a status, as stored in the source. -/
def statusToString : ApprovalStatus → String
  | ApprovalStatus.pending => "pending"
  | ApprovalStatus.approved => "approved"
  | ApprovalStatus.rejected => "rejected"
  | ApprovalStatus.expired => "expired"

/-- The capitalized status word used in notification titles
(`charAt(0).toUpperCase() + slice(1)`). -/
def capitalizeStr (s : String) : String :=
  match s.data with
  | [] => ""
  | c :: cs => String.mk (c.toUpper :: cs)

/-- A live approval request, keyed by deployment id. -/
structure ApprovalRequest where
  id : String
  deploymentId : String
  environmentId : String
  environmentType : String
  status : ApprovalStatus
  requiredApprovals : Nat
  approvals : List ApprovalAction
  rules : List String
  createdAt : Nat
  updatedAt : Nat
  expiresAt : Nat
  deriving DecidableEq

/-- A notification created on request creation or status change. -/
structure ApprovalNotification where
  id : String
  type : String
  title : String
  message : String
  requestId : String
  userId : String
  isRead : Bool
  createdAt : Nat
  deriving DecidableEq

/-- The state held in `ApprovalStore.approvals`. -/
structure ApprovalState where
  rules : List (String × ApprovalRule)
  requests : List (String × ApprovalRequest)
  notifications : List (String × ApprovalNotification)
  deriving DecidableEq

/-- A `Partial<ApprovalRequest>` update object. -/
structure PartialApprovalRequest where
  id : Option String := none
  deploymentId : Option String := none
  environmentId : Option String := none
  environmentType : Option String := none
  status : Option ApprovalStatus := none
  requiredApprovals : Option Nat := none
  approvals : Option (List ApprovalAction) := none
  rules : Option (List String) := none
  createdAt : Option Nat := none
  expiresAt : Option Nat := none
  deriving DecidableEq

/-- The spread-merge `{...request, ...updates, updatedAt: now}` used by
`ApprovalStore.updateApprovalRequest`. -/
def mergeApprovalRequest (r : ApprovalRequest) (u : PartialApprovalRequest) (now : Nat) :
    ApprovalRequest :=
  { id := u.id.getD r.id
    deploymentId := u.deploymentId.getD r.deploymentId
    environmentId := u.environmentId.getD r.environmentId
    environmentType := u.environmentType.getD r.environmentType
    status := u.status.getD r.status
    requiredApprovals := u.requiredApprovals.getD r.requiredApprovals
    approvals := u.approvals.getD r.approvals
    rules := u.rules.getD r.rules
    createdAt := u.createdAt.getD r.createdAt
    updatedAt := now
    expiresAt := u.expiresAt.getD r.expiresAt }

/-- A partial update that sets only the `status` field. -/
def statusPatch (s : ApprovalStatus) : PartialApprovalRequest :=
  { status := some s }

/-- `ApprovalStore.addNotification`. -/
def addNotification (st : ApprovalState) (n : ApprovalNotification) : ApprovalState :=
  { st with notifications := setKey st.notifications n.id n }

/-- `ApprovalStore.createApprovalRequest`: store the request and create
the approval-required notification. -/
def createApprovalRequest (st : ApprovalState) (request : ApprovalRequest) (now : Nat) :
    ApprovalState :=
  let st1 : ApprovalState := { st with requests := setKey st.requests request.id request }
  addNotification st1
    { id := "approval-required-" ++ request.id, type := "approval_required",
      title := "Approval Required",
      message := "Deployment to " ++ request.environmentType ++ " requires your approval",
      requestId := request.id, userId := "all", isRead := false, createdAt := now }

/-- `ApprovalStore.updateApprovalRequest`: merge a partial update into an
existing request (refreshing `updatedAt`), and when the update carries a
status different from the current one, add a status-change notification;
unknown ids are silently ignored. -/
def updateApprovalRequest (st : ApprovalState) (id : String) (updates : PartialApprovalRequest)
    (now : Nat) : ApprovalState :=
  match getKey st.requests id with
  | none => st
  | some request =>
      let updatedRequest := mergeApprovalRequest request updates now
      let st1 : ApprovalState := { st with requests := setKey st.requests id updatedRequest }
      match updates.status with
      | some s =>
          if s ≠ request.status then
            addNotification st1
              { id := "approval-" ++ statusToString s ++ "-" ++ id,
                type := "approval_" ++ statusToString s,
                title := "Approval " ++ capitalizeStr (statusToString s),
                message := "Deployment approval has been " ++ statusToString s,
                requestId := id, userId := "all", isRead := false, createdAt := now }
          else st1
      | none => st1

/-- `ApprovalStore.addApprovalToRequest`: append the action to the
request's action list (refreshing `updatedAt`); unknown request ids are
silently ignored. -/
def addApprovalToRequest (st : ApprovalState) (requestId : String)
    (approval : ApprovalAction) (now : Nat) : ApprovalState :=
  match getKey st.requests requestId with
  | none => st
  | some request =>
      let updatedRequest :=
        { request with approvals := request.approvals ++ [approval], updatedAt := now }
      { st with requests := setKey st.requests requestId updatedRequest }

/-- The status of the request stored under `id`, when present. -/
def statusOf (st : ApprovalState) (id : String) : Option ApprovalStatus :=
  (getKey st.requests id).map (fun r => r.status)

/-- The core of `handleApprovalAction` in the `ApprovalRequest` component
(WebhookManager.tsx): append the action through
`approvalStore.addApprovalToRequest`, reread the request, recount
approvals and rejections over the full action list, and set the status:
any rejection wins, else quorum approves, else leave the status alone. -/
def recordAction (st : ApprovalState) (deploymentId : String) (approval : ApprovalAction)
    (now : Nat) : ApprovalState :=
  let st1 := addApprovalToRequest st deploymentId approval now
  match getKey st1.requests deploymentId with
  | none => st1
  | some updatedRequest =>
      let approvedCount := (updatedRequest.approvals.filter
        (fun a => a.action = "approve")).length
      let rejectedCount := (updatedRequest.approvals.filter
        (fun a => a.action = "reject")).length
      if 0 < rejectedCount then
        updateApprovalRequest st1 deploymentId (statusPatch ApprovalStatus.rejected) now
      else if updatedRequest.requiredApprovals ≤ approvedCount then
        updateApprovalRequest st1 deploymentId (statusPatch ApprovalStatus.approved) now
      else st1

/-- The lazily derived expiry check of the `ApprovalRequest` component
(`new Date() > new Date(request.expiresAt)`): a pure display value, not
a state transition. -/
def isExpiredEval (now : Nat) (r : ApprovalRequest) : Bool :=
  r.expiresAt < now

theorem statusOf_updateApprovalRequest_patch (st : ApprovalState) (id : String)
    (s : ApprovalStatus) (now : Nat) (r : ApprovalRequest)
    (h : getKey st.requests id = some r) :
    statusOf (updateApprovalRequest st id (statusPatch s) now) id = some s := by
  simp only [updateApprovalRequest, h, statusPatch]
  by_cases hne : s = r.status
  · simp [hne, statusOf, getKey_setKey_self, mergeApprovalRequest]
  · simp [hne, statusOf, addNotification, getKey_setKey_self, mergeApprovalRequest]

/-- The request as updated by `addApprovalToRequest` when it exists. -/
def appendAction (req : ApprovalRequest) (a : ApprovalAction) (now : Nat) : ApprovalRequest :=
  { req with approvals := req.approvals ++ [a], updatedAt := now }

theorem addApprovalToRequest_of_some (st : ApprovalState) (d : String) (a : ApprovalAction)
    (now : Nat) (req : ApprovalRequest) (h : getKey st.requests d = some req) :
    (addApprovalToRequest st d a now).requests =
      setKey st.requests d (appendAction req a now) := by
  simp only [addApprovalToRequest, h, appendAction]

/-- Characterization of `recordAction` shared by the veto and terminal
state claims: the new status is recomputed from the full action list,
regardless of the previous status. -/
theorem recordAction_statusOf (st : ApprovalState) (d : String) (a : ApprovalAction)
    (now : Nat) (req : ApprovalRequest) (h : getKey st.requests d = some req) :
    statusOf (recordAction st d a now) d =
      some (if 0 < ((req.approvals ++ [a]).filter (fun x => x.action = "reject")).length
        then ApprovalStatus.rejected
        else if req.requiredApprovals ≤
            ((req.approvals ++ [a]).filter (fun x => x.action = "approve")).length
          then ApprovalStatus.approved
          else req.status) := by
  have h1 := addApprovalToRequest_of_some st d a now req h
  have h2 : getKey (addApprovalToRequest st d a now).requests d =
      some (appendAction req a now) := by
    rw [h1]
    exact getKey_setKey_self st.requests d _
  simp only [recordAction, h2, appendAction]
  by_cases hrej : 0 < ((req.approvals ++ [a]).filter (fun x => x.action = "reject")).length
  · rw [if_pos hrej, if_pos hrej]
    exact statusOf_updateApprovalRequest_patch _ d ApprovalStatus.rejected now _ h2
  · rw [if_neg hrej, if_neg hrej]
    by_cases happ : req.requiredApprovals ≤
        ((req.approvals ++ [a]).filter (fun x => x.action = "approve")).length
    · rw [if_pos happ, if_pos happ]
      exact statusOf_updateApprovalRequest_patch _ d ApprovalStatus.approved now _ h2
    · rw [if_neg happ, if_neg happ]
      unfold statusOf
      rw [h2]
      rfl

/-- Claim C2: after `recordAction`, if the full action list contains at
least one reject action, the request status is `rejected`, whatever the
order of the actions and however many approvals are present. -/
theorem recordAction_reject_veto (st : ApprovalState) (d : String) (a : ApprovalAction)
    (now : Nat) (req : ApprovalRequest) (h : getKey st.requests d = some req)
    (hrej : 0 < ((req.approvals ++ [a]).filter (fun x => x.action = "reject")).length) :
    statusOf (recordAction st d a now) d = some ApprovalStatus.rejected := by
  rw [recordAction_statusOf st d a now req h, if_pos hrej]

/-- A pending request that needs two approvals. -/
def reqC2 : ApprovalRequest :=
  { id := "d1", deploymentId := "d1", environmentId := "env1",
    environmentType := "production", status := ApprovalStatus.pending,
    requiredApprovals := 2, approvals := [], rules := ["rule-1"],
    createdAt := 0, updatedAt := 0, expiresAt := 86400000 }

/-- An approval registry holding only `reqC2`. -/
def stC2 : ApprovalState :=
  { rules := [], requests := [("d1", reqC2)], notifications := [] }

/-- A concrete approve action. -/
def approveActC2 : ApprovalAction :=
  { id := "1", userId := "u1", userName := "User One", userEmail := "u1@example.com",
    action := "approve", comment := "", timestamp := 1 }

/-- A concrete reject action. -/
def rejectActC2 : ApprovalAction :=
  { id := "2", userId := "u2", userName := "User Two", userEmail := "u2@example.com",
    action := "reject", comment := "no", timestamp := 2 }

/-- Witness for claim C2: with `requiredApprovals = 2`, one approve
followed by one reject leaves the request `rejected`. -/
theorem recordAction_reject_veto_witness :
    statusOf (recordAction (recordAction stC2 "d1" approveActC2 1) "d1" rejectActC2 2) "d1" =
      some ApprovalStatus.rejected :=
  recordAction_reject_veto (recordAction stC2 "d1" approveActC2 1) "d1" rejectActC2 2
    { reqC2 with approvals := [approveActC2], updatedAt := 1 } (by decide) (by decide)

/-- A request that is already in the terminal state `approved`
(quorum 1, one approval recorded). -/
def reqC3 : ApprovalRequest :=
  { id := "d9", deploymentId := "d9", environmentId := "env1",
    environmentType := "production", status := ApprovalStatus.approved,
    requiredApprovals := 1, approvals := [approveActC2], rules := ["rule-1"],
    createdAt := 0, updatedAt := 0, expiresAt := 86400000 }

/-- An approval registry holding only the already-approved `reqC3`. -/
def stC3 : ApprovalState :=
  { rules := [], requests := [("d9", reqC3)], notifications := [] }

/-- Counterexample to claim C3: terminal statuses are not preserved.
Recording a reject action against a request whose status is the terminal
state `approved` flips its status to `rejected`, because the transition
algorithm recomputes the status from the action list without a
terminal-state guard. -/
theorem recordAction_terminal_not_preserved_counterexample :
    statusOf stC3 "d9" = some ApprovalStatus.approved ∧
      statusOf (recordAction stC3 "d9" rejectActC2 5) "d9" = some ApprovalStatus.rejected := by
  constructor
  · decide
  · decide

/-- Claim C3, amended: `recordAction` is not guarded by terminal states;
it recomputes the status of the (existing) request purely from the full
action list: any reject yields `rejected` (even out of the terminal
state `approved`), else a met quorum yields `approved`, else the stored
status is left unchanged. Lazy expiry evaluation (`isExpiredEval`) is a
derived display value and never mutates the stored status. -/
theorem recordAction_status_recompute (st : ApprovalState) (d : String) (a : ApprovalAction)
    (now : Nat) (req : ApprovalRequest) (h : getKey st.requests d = some req) :
    statusOf (recordAction st d a now) d =
      some (if 0 < ((req.approvals ++ [a]).filter (fun x => x.action = "reject")).length
        then ApprovalStatus.rejected
        else if req.requiredApprovals ≤
            ((req.approvals ++ [a]).filter (fun x => x.action = "approve")).length
          then ApprovalStatus.approved
          else req.status) :=
  recordAction_statusOf st d a now req h

/-- Witness for the amended claim C3 at the concrete approved request. -/
theorem recordAction_status_recompute_witness :
    statusOf (recordAction stC3 "d9" rejectActC2 5) "d9" =
      some (if 0 < ((reqC3.approvals ++ [rejectActC2]).filter
          (fun x => x.action = "reject")).length
        then ApprovalStatus.rejected
        else if reqC3.requiredApprovals ≤
            ((reqC3.approvals ++ [rejectActC2]).filter (fun x => x.action = "approve")).length
          then ApprovalStatus.approved
          else reqC3.status) :=
  recordAction_status_recompute stC3 "d9" rejectActC2 5 reqC3 (by decide)

/-! ## Approval gate evaluation (ApprovalRequest component, WebhookManager.tsx) -/

/-- The value of `Math.max(...xs)` as used on the nonempty list of
`requiredApprovers`. -/
def listMaxNat (l : List Nat) : Nat := l.foldl Nat.max 0

/-- The value of `Math.min(...xs)` as used on the nonempty list of
`timeoutHours`. -/
def listMinNat : List Nat → Nat
  | [] => 0
  | x :: xs => xs.foldl Nat.min x

theorem foldl_max_init_le : ∀ (l : List Nat) (a : Nat), a ≤ l.foldl Nat.max a := by
  intro l
  induction l with
  | nil => intro a; simp
  | cons y ys ih =>
      intro a
      calc a ≤ Nat.max a y := Nat.le_max_left a y
      _ ≤ ys.foldl Nat.max (Nat.max a y) := ih (Nat.max a y)

theorem foldl_max_le_mem : ∀ (l : List Nat) (a x : Nat), x ∈ l → x ≤ l.foldl Nat.max a := by
  intro l
  induction l with
  | nil => intro a x hx; simp at hx
  | cons y ys ih =>
      intro a x hx
      rcases List.mem_cons.mp hx with hx | hx
      · subst hx
        calc x ≤ Nat.max a x := Nat.le_max_right a x
        _ ≤ ys.foldl Nat.max (Nat.max a x) := foldl_max_init_le ys (Nat.max a x)
      · exact ih (Nat.max a y) x hx

theorem foldl_max_mem_cons : ∀ (l : List Nat) (a : Nat), l.foldl Nat.max a ∈ a :: l := by
  intro l
  induction l with
  | nil => intro a; simp
  | cons y ys ih =>
      intro a
      rcases List.mem_cons.mp (ih (Nat.max a y)) with h | h
      · rw [List.foldl_cons, h]
        rcases Nat.le_total a y with hle | hle
        · rw [show Nat.max a y = y from Nat.max_eq_right hle]
          exact List.mem_cons_of_mem a (List.mem_cons_self y ys)
        · rw [show Nat.max a y = a from Nat.max_eq_left hle]
          exact List.mem_cons_self a (y :: ys)
      · rw [List.foldl_cons]
        exact List.mem_cons_of_mem a (List.mem_cons_of_mem y h)

theorem le_listMaxNat (l : List Nat) (x : Nat) (hx : x ∈ l) : x ≤ listMaxNat l :=
  foldl_max_le_mem l 0 x hx

theorem listMaxNat_mem (l : List Nat) (h : l ≠ []) : listMaxNat l ∈ l := by
  cases l with
  | nil => exact absurd rfl h
  | cons y ys =>
      rcases List.mem_cons.mp (foldl_max_mem_cons (y :: ys) 0) with h0 | hm
      · have h0y : listMaxNat (y :: ys) = 0 := h0
        have hy : y ≤ listMaxNat (y :: ys) := le_listMaxNat _ y (List.mem_cons_self y ys)
        rw [h0y] at hy
        have hy0 : y = 0 := Nat.le_zero.mp hy
        rw [h0y, ← hy0]
        exact List.mem_cons_self y ys
      · exact hm

theorem foldl_min_le_init : ∀ (l : List Nat) (a : Nat), l.foldl Nat.min a ≤ a := by
  intro l
  induction l with
  | nil => intro a; simp
  | cons y ys ih =>
      intro a
      calc ys.foldl Nat.min (Nat.min a y) ≤ Nat.min a y := ih (Nat.min a y)
      _ ≤ a := Nat.min_le_left a y

theorem foldl_min_le_mem : ∀ (l : List Nat) (a x : Nat), x ∈ l → l.foldl Nat.min a ≤ x := by
  intro l
  induction l with
  | nil => intro a x hx; simp at hx
  | cons y ys ih =>
      intro a x hx
      rcases List.mem_cons.mp hx with hx | hx
      · subst hx
        calc ys.foldl Nat.min (Nat.min a x) ≤ Nat.min a x := foldl_min_le_init ys (Nat.min a x)
        _ ≤ x := Nat.min_le_right a x
      · exact ih (Nat.min a y) x hx

theorem foldl_min_mem_cons : ∀ (l : List Nat) (a : Nat), l.foldl Nat.min a ∈ a :: l := by
  intro l
  induction l with
  | nil => intro a; simp
  | cons y ys ih =>
      intro a
      rcases List.mem_cons.mp (ih (Nat.min a y)) with h | h
      · rw [List.foldl_cons, h]
        rcases Nat.le_total a y with hle | hle
        · rw [show Nat.min a y = a from Nat.min_eq_left hle]
          exact List.mem_cons_self a (y :: ys)
        · rw [show Nat.min a y = y from Nat.min_eq_right hle]
          exact List.mem_cons_of_mem a (List.mem_cons_self y ys)
      · rw [List.foldl_cons]
        exact List.mem_cons_of_mem a (List.mem_cons_of_mem y h)

theorem listMinNat_le (l : List Nat) (x : Nat) (hx : x ∈ l) : listMinNat l ≤ x := by
  match l, hx with
  | y :: ys, hx =>
      rcases List.mem_cons.mp hx with h | h
      · subst h
        exact foldl_min_le_init ys x
      · exact foldl_min_le_mem ys y x h

theorem listMinNat_mem (l : List Nat) (h : l ≠ []) : listMinNat l ∈ l := by
  match l, h with
  | y :: ys, _ => exact foldl_min_mem_cons ys y

/-- `ApprovalStore.getApprovalRulesForEnvironment`: the enabled rules for
an environment type whose environment id is empty (all environments) or
equal to the given one. -/
def getApprovalRulesForEnvironment (st : ApprovalState) (environmentId : String)
    (environmentType : String) : List ApprovalRule :=
  (st.rules.map Prod.snd).filter (fun rule =>
    rule.isEnabled && rule.environmentType = environmentType &&
      (rule.environmentId = "" || rule.environmentId = environmentId))

/-- `ApprovalStore.requiresApproval`. -/
def requiresApproval (st : ApprovalState) (environmentId : String)
    (environmentType : String) : Bool :=
  0 < (getApprovalRulesForEnvironment st environmentId environmentType).length

/-- The `applicableRules` filter of the `ApprovalRequest` component,
where the environment may be absent (`environment?.type`): strict
equality against `undefined` never holds. -/
def applicableRulesFor (st : ApprovalState) (environmentId : String)
    (environmentType : Option String) : List ApprovalRule :=
  (st.rules.map Prod.snd).filter (fun rule =>
    rule.isEnabled &&
      (match environmentType with
       | some t => rule.environmentType = t
       | none => false) &&
      (rule.environmentId = "" || rule.environmentId = environmentId))

theorem applicableRulesFor_eq_store (st : ApprovalState) (e t : String) :
    applicableRulesFor st e (some t) = getApprovalRulesForEnvironment st e t := rfl

/-- The request-creating `useEffect` of the `ApprovalRequest` component:
when no request exists for the deployment and the applicable rule set is
nonempty, create a pending request whose `requiredApprovals` is
`Math.max` of the rules' `requiredApprovers` and whose `expiresAt` is
`now` plus `Math.min` of the rules' `timeoutHours` in milliseconds. -/
def evaluateApprovalGate (st : ApprovalState) (deploymentId : String)
    (environmentId : String) (environmentType : Option String) (now : Nat) : ApprovalState :=
  let request := getKey st.requests deploymentId
  let applicableRules := applicableRulesFor st environmentId environmentType
  if request = none ∧ 0 < applicableRules.length then
    createApprovalRequest st
      { id := deploymentId, deploymentId := deploymentId, environmentId := environmentId,
        environmentType := strOrDefault environmentType "production",
        status := ApprovalStatus.pending,
        requiredApprovals := listMaxNat (applicableRules.map (fun r => r.requiredApprovers)),
        approvals := [],
        rules := applicableRules.map (fun r => r.id),
        createdAt := now, updatedAt := now,
        expiresAt := now +
          listMinNat (applicableRules.map (fun r => r.timeoutHours)) * 60 * 60 * 1000 } now
  else st

theorem getKey_createApprovalRequest_self (st : ApprovalState) (r : ApprovalRequest)
    (now : Nat) : getKey (createApprovalRequest st r now).requests r.id = some r := by
  simp only [createApprovalRequest, addNotification]
  exact getKey_setKey_self st.requests r.id r

/-- Claim C7: on first evaluation with no existing request, a nonempty
applicable rule set (enabled, matching environment type, environment id
empty or equal) yields a request whose `requiredApprovals` is the
maximum `requiredApprovers` over the applicable rules and whose
`expiresAt` is creation time plus the minimum `timeoutHours` over the
applicable rules (in milliseconds); an empty applicable set leaves the
state unchanged, so no request is created and approval is not required. -/
theorem evaluateApprovalGate_spec (st : ApprovalState) (d e t : String) (now : Nat)
    (hreq : getKey st.requests d = none) :
    (0 < (applicableRulesFor st e (some t)).length →
      ∃ r, getKey (evaluateApprovalGate st d e (some t) now).requests d = some r ∧
        ((∀ rule ∈ applicableRulesFor st e (some t),
            rule.requiredApprovers ≤ r.requiredApprovals) ∧
          (∃ rule ∈ applicableRulesFor st e (some t),
            r.requiredApprovals = rule.requiredApprovers)) ∧
        ((∀ rule ∈ applicableRulesFor st e (some t),
            r.expiresAt ≤ now + rule.timeoutHours * 60 * 60 * 1000) ∧
          (∃ rule ∈ applicableRulesFor st e (some t),
            r.expiresAt = now + rule.timeoutHours * 60 * 60 * 1000))) ∧
    ((applicableRulesFor st e (some t)).length = 0 →
      evaluateApprovalGate st d e (some t) now = st) := by
  constructor
  · intro hA
    simp only [evaluateApprovalGate]
    rw [if_pos ⟨hreq, hA⟩]
    refine ⟨_, getKey_createApprovalRequest_self st _ now, ⟨?_, ?_⟩, ?_, ?_⟩
    · intro rule hrule
      exact le_listMaxNat _ _ (List.mem_map.mpr ⟨rule, hrule, rfl⟩)
    · have hne : (applicableRulesFor st e (some t)).map
          (fun r => r.requiredApprovers) ≠ [] := by
        have hp : 0 < ((applicableRulesFor st e (some t)).map
            (fun r => r.requiredApprovers)).length := by simpa using hA
        exact List.ne_nil_of_length_pos hp
      obtain ⟨rule, hrule, heq⟩ := List.mem_map.mp (listMaxNat_mem _ hne)
      exact ⟨rule, hrule, heq.symm⟩
    · intro rule hrule
      have hmin := listMinNat_le ((applicableRulesFor st e (some t)).map
        (fun r => r.timeoutHours)) rule.timeoutHours (List.mem_map.mpr ⟨rule, hrule, rfl⟩)
      show now + listMinNat ((applicableRulesFor st e (some t)).map
          (fun r => r.timeoutHours)) * 60 * 60 * 1000 ≤
        now + rule.timeoutHours * 60 * 60 * 1000
      omega
    · have hne : (applicableRulesFor st e (some t)).map (fun r => r.timeoutHours) ≠ [] := by
        have hp : 0 < ((applicableRulesFor st e (some t)).map
            (fun r => r.timeoutHours)).length := by simpa using hA
        exact List.ne_nil_of_length_pos hp
      obtain ⟨rule, hrule, heq⟩ := List.mem_map.mp (listMinNat_mem _ hne)
      refine ⟨rule, hrule, ?_⟩
      show now + listMinNat ((applicableRulesFor st e (some t)).map
          (fun r => r.timeoutHours)) * 60 * 60 * 1000 =
        now + rule.timeoutHours * 60 * 60 * 1000
      rw [← heq]
  · intro hA0
    simp only [evaluateApprovalGate]
    rw [if_neg (by
      intro hc
      rw [hA0] at hc
      exact Nat.lt_irrefl 0 hc.2)]

/-- An enabled production rule applying to all environments: quorum 2,
timeout 24 hours. -/
def ruleC7a : ApprovalRule :=
  { id := "rule-a", name := "Prod A", environmentId := "", environmentType := "production",
    isEnabled := true, approvalType := "manual", requiredApprovers := 2, approvers := [],
    conditions := [], timeoutHours := 24, autoApproveOnTimeout := false,
    createdAt := 0, updatedAt := 0 }

/-- An enabled production rule pinned to environment `env1`: quorum 3,
timeout 12 hours. -/
def ruleC7b : ApprovalRule :=
  { id := "rule-b", name := "Prod B", environmentId := "env1",
    environmentType := "production", isEnabled := true, approvalType := "manual",
    requiredApprovers := 3, approvers := [], conditions := [], timeoutHours := 12,
    autoApproveOnTimeout := false, createdAt := 0, updatedAt := 0 }

/-- An approval registry holding the two C7 rules and no requests. -/
def stC7 : ApprovalState :=
  { rules := [("rule-a", ruleC7a), ("rule-b", ruleC7b)], requests := [],
    notifications := [] }

/-- The request the C7 witness expects to be created: max quorum 3, and
expiry after the minimum timeout of 12 hours (43200000 ms). -/
def reqC7expected : ApprovalRequest :=
  { id := "d1", deploymentId := "d1", environmentId := "env1",
    environmentType := "production", status := ApprovalStatus.pending,
    requiredApprovals := 3, approvals := [], rules := ["rule-a", "rule-b"],
    createdAt := 0, updatedAt := 0, expiresAt := 43200000 }

/-- Witness for claim C7 with two applicable rules (quorums 2 and 3,
timeouts 24 h and 12 h): the created request requires 3 approvals and
expires after 12 hours. -/
theorem evaluateApprovalGate_spec_witness :
    ∃ r, getKey (evaluateApprovalGate stC7 "d1" "env1" (some "production") 0).requests
        "d1" = some r ∧ r.requiredApprovals = 3 ∧ r.expiresAt = 43200000 := by
  obtain ⟨r, hr, -, -⟩ :=
    (evaluateApprovalGate_spec stC7 "d1" "env1" "production" 0 (by decide)).1 (by decide)
  have hconc : getKey (evaluateApprovalGate stC7 "d1" "env1" (some "production") 0).requests
      "d1" = some reqC7expected := by decide
  have hre : r = reqC7expected := (Option.some.inj (hconc.symm.trans hr)).symm
  subst hre
  exact ⟨reqC7expected, hr, rfl, rfl⟩

/-! ## Inbound webhook router (`handleIncomingWebhook`) -/

/-- The `{success, message}` result returned by the router. -/
structure HandlerResult where
  success : Bool
  message : String
  deriving DecidableEq

/-- The `data` object of an inbound `approval.response` payload; every
field may be absent. -/
structure ApprovalResponseData where
  requestId : Option String := none
  action : Option String := none
  userId : Option String := none
  userName : Option String := none
  userEmail : Option String := none
  comment : Option String := none
  deriving DecidableEq

/-- `WebhookStore.handleApprovalResponse`: validate the (JS-truthy)
presence of `requestId`, `action` and `userId`, construct one
`ApprovalAction` and forward it to `addApprovalToRequest`. -/
def handleApprovalResponse (st : ApprovalState) (data : ApprovalResponseData) (now : Nat) :
    HandlerResult × ApprovalState :=
  if !(truthyStr data.requestId) || !(truthyStr data.action) || !(truthyStr data.userId) then
    ({ success := false, message := "Missing required fields" }, st)
  else
    let approval : ApprovalAction :=
      { id := toString now, userId := data.userId.getD "",
        userName := strOrDefault data.userName "External User",
        userEmail := strOrDefault data.userEmail "external@system.com",
        action := data.action.getD "",
        comment := strOrDefault data.comment "",
        timestamp := now }
    ({ success := true, message := "Approval response processed" },
      addApprovalToRequest st (data.requestId.getD "") approval now)

/-- An inbound webhook payload envelope. -/
structure IncomingPayload where
  event : Option String := none
  data : ApprovalResponseData := {}
  deriving DecidableEq

/-- `WebhookStore.handleDeploymentStatus`: the source only logs the
update and reports success. -/
def handleDeploymentStatus (st : ApprovalState) (data : ApprovalResponseData) :
    HandlerResult × ApprovalState :=
  ({ success := true, message := "Deployment status updated" }, st)

/-- `WebhookStore.handleIncomingWebhook`: verify the signature when one
is provided, then dispatch on the payload's event type. -/
def handleIncomingWebhook (st : ApprovalState) (payload : IncomingPayload)
    (signature : Option String) (now : Nat) : HandlerResult × ApprovalState :=
  if truthyStr signature && !(verifySignature payload (signature.getD "")) then
    ({ success := false, message := "Invalid signature" }, st)
  else
    match payload.event with
    | some "approval.response" => handleApprovalResponse st payload.data now
    | some "deployment.status" => handleDeploymentStatus st payload.data
    | _ => ({ success := false, message := "Unknown event type" }, st)

/-- A response payload whose `requestId` is present but empty. -/
def dataC8empty : ApprovalResponseData :=
  { requestId := some "", action := some "approve", userId := some "u1" }

/-- Counterexample to claim C8: a payload whose three required fields are
all present, with `requestId` the empty string, is nonetheless rejected
as `Missing required fields` (JS truthiness treats the empty string as
absent) and no ApprovalAction is forwarded: the state is unchanged. -/
theorem handleApprovalResponse_empty_field_counterexample :
    dataC8empty.requestId = some "" ∧ dataC8empty.action = some "approve" ∧
      dataC8empty.userId = some "u1" ∧
      handleApprovalResponse stC2 dataC8empty 7 =
        ({ success := false, message := "Missing required fields" }, stC2) := by
  refine ⟨rfl, rfl, rfl, ?_⟩
  decide

/-- Claim C8, amended: when any of `requestId`, `action`, `userId` is
absent or empty (JS-falsy), the router returns `Missing required fields`
and performs no state mutation; when all three are present and non-empty
and the request exists, the call succeeds and exactly one constructed
ApprovalAction is appended to that request's action list. -/
theorem handleApprovalResponse_validation (st : ApprovalState)
    (data : ApprovalResponseData) (now : Nat) :
    ((truthyStr data.requestId = false ∨ truthyStr data.action = false ∨
        truthyStr data.userId = false) →
      handleApprovalResponse st data now =
        ({ success := false, message := "Missing required fields" }, st)) ∧
    (∀ (rid : String) (req : ApprovalRequest), data.requestId = some rid →
      truthyStr data.requestId = true → truthyStr data.action = true →
      truthyStr data.userId = true → getKey st.requests rid = some req →
      (handleApprovalResponse st data now).1 =
        { success := true, message := "Approval response processed" } ∧
      ∃ act : ApprovalAction, act.userId = data.userId.getD "" ∧
        act.action = data.action.getD "" ∧
        getKey (handleApprovalResponse st data now).2.requests rid =
          some { req with approvals := req.approvals ++ [act], updatedAt := now }) := by
  constructor
  · intro h
    rcases h with h | h | h <;> simp [handleApprovalResponse, h]
  · intro rid req hrid h1 h2 h3 hreq
    have hcond : (!(truthyStr data.requestId) || !(truthyStr data.action) ||
        !(truthyStr data.userId)) = false := by
      rw [h1, h2, h3]
      rfl
    constructor
    · simp [handleApprovalResponse, hcond]
    · refine ⟨{ id := toString now, userId := data.userId.getD "",
                userName := strOrDefault data.userName "External User",
                userEmail := strOrDefault data.userEmail "external@system.com",
                action := data.action.getD "",
                comment := strOrDefault data.comment "",
                timestamp := now }, rfl, rfl, ?_⟩
      simp only [handleApprovalResponse, hcond, Bool.false_eq_true, if_false]
      have hgd : data.requestId.getD "" = rid := by
        rw [hrid]
        rfl
      rw [hgd, addApprovalToRequest_of_some st rid _ now req hreq]
      exact getKey_setKey_self st.requests rid _

/-- A payload with `userId` absent. -/
def dataC8missing : ApprovalResponseData :=
  { requestId := some "d1", action := some "approve" }

/-- A payload with all required fields present and non-empty. -/
def dataC8full : ApprovalResponseData :=
  { requestId := some "d1", action := some "approve", userId := some "u1",
    userName := some "User One", userEmail := some "u1@example.com",
    comment := some "looks good" }

/-- Witness for the amended claim C8: a payload missing `userId` is
rejected with no state change, and a complete payload for the existing
request `d1` succeeds, appending exactly one action. -/
theorem handleApprovalResponse_validation_witness :
    (handleApprovalResponse stC2 dataC8missing 7 =
      ({ success := false, message := "Missing required fields" }, stC2)) ∧
    ((handleApprovalResponse stC2 dataC8full 7).1 =
        { success := true, message := "Approval response processed" } ∧
      ∃ act : ApprovalAction, act.userId = dataC8full.userId.getD "" ∧
        act.action = dataC8full.action.getD "" ∧
        getKey (handleApprovalResponse stC2 dataC8full 7).2.requests "d1" =
          some { reqC2 with approvals := reqC2.approvals ++ [act], updatedAt := 7 }) := by
  constructor
  · exact (handleApprovalResponse_validation stC2 dataC8missing 7).1 (Or.inr (Or.inr rfl))
  · exact (handleApprovalResponse_validation stC2 dataC8full 7).2 "d1" reqC2 rfl (by decide)
      (by decide) (by decide) (by decide)

/-- Claim C10: an `approval.response` whose required fields are present
(and truthy) but whose `requestId` matches no existing request still
reports success while the approval registry state is left completely
unchanged: the recorded action is silently dropped. -/
theorem handleApprovalResponse_unknown_request (st : ApprovalState)
    (data : ApprovalResponseData) (now : Nat) (rid : String)
    (hrid : data.requestId = some rid)
    (h1 : truthyStr data.requestId = true) (h2 : truthyStr data.action = true)
    (h3 : truthyStr data.userId = true) (hmiss : getKey st.requests rid = none) :
    handleApprovalResponse st data now =
      ({ success := true, message := "Approval response processed" }, st) := by
  have hcond : (!(truthyStr data.requestId) || !(truthyStr data.action) ||
      !(truthyStr data.userId)) = false := by
    rw [h1, h2, h3]
    rfl
  simp only [handleApprovalResponse, hcond, Bool.false_eq_true, if_false]
  have hgd : data.requestId.getD "" = rid := by
    rw [hrid]
    rfl
  rw [hgd]
  simp only [addApprovalToRequest, hmiss]

/-- A response payload naming a request id that does not exist. -/
def dataC10 : ApprovalResponseData :=
  { requestId := some "ghost", action := some "reject", userId := some "u9" }

/-- Witness for claim C10: the registry holds only request `d1`, the
payload names `ghost`; the router reports success and the state is
unchanged. -/
theorem handleApprovalResponse_unknown_request_witness :
    handleApprovalResponse stC2 dataC10 7 =
      ({ success := true, message := "Approval response processed" }, stC2) :=
  handleApprovalResponse_unknown_request stC2 dataC10 7 "ghost" rfl (by decide) (by decide)
    (by decide) (by decide)
